import Mathlib

/-!
Shallow embedding of `src/protex.py` (ProTeX v2.00, Python version).

Modelling conventions:
* Each Python `print(x)` emits the lines obtained from `x` by splitting on
  embedded `"\n"` (since `print` terminates the string with a newline, a
  string with one embedded newline yields two output lines).
* Python strings are Lean `String`s; the whitespace-splitting, substring
  test, `lstrip`, `startswith`, slicing and `replace` operations of Python
  are re-implemented structurally on `List Char` so that every definition
  is executable and kernel-reducible.
* The mutable `state` dict is the structure `DocState`; `tokens` is
  `Tokens`; the `argparse` namespace is `Opts`.
* `datetime.now()` is an explicit parameter (`fdate`) of `process_file`.
-/

namespace Protex

/-- Python `str.split()` whitespace (space, tab, newline, CR, VT, FF). -/
def isWs (c : Char) : Bool :=
  c = ' ' || c = '\t' || c = '\n' || c = '\r' || c = '\x0b' || c = '\x0c'

/-- Drop leading whitespace characters (Python `str.lstrip()`). -/
def dropWs : List Char → List Char
  | [] => []
  | c :: cs => if isWs c then dropWs cs else c :: cs

/-- Helper for `pywords`: accumulate the current (reversed) word. -/
def wordsAux : List Char → List Char → List (List Char)
  | [], acc => if acc.isEmpty then [] else [acc.reverse]
  | c :: cs, acc =>
      if isWs c then
        if acc.isEmpty then wordsAux cs [] else acc.reverse :: wordsAux cs []
      else wordsAux cs (c :: acc)

/-- Python `str.split()` with no arguments: whitespace-run splitting,
no empty fields. -/
def pywords (cs : List Char) : List (List Char) := wordsAux cs []

/-- The field list of a line, as Python `line.split()`. -/
def lineFields (line : String) : List String :=
  (pywords line.data).map (fun w => ⟨w⟩)

/-- Python `" ".join(xs)`. -/
def joinSp : List String → String
  | [] => ""
  | [x] => x
  | x :: xs => x ++ " " ++ joinSp xs

/-- Substring test on character lists (Python `needle in hay`). -/
def subList : List Char → List Char → Bool
  | n, [] => n.isEmpty
  | n, c :: t => n.isPrefixOf (c :: t) || subList n t

/-- Python `needle in hay` for strings. -/
def containsSub (hay needle : String) : Bool := subList needle.data hay.data

/-- Python `s.replace("_", "\\_")` (the needle is a single character). -/
def escUnd : List Char → List Char
  | [] => []
  | c :: cs => if c = '_' then '\\' :: '_' :: escUnd cs else c :: escUnd cs

/-- String version of `escUnd`. -/
def escUndS (s : String) : String := ⟨escUnd s.data⟩

/-- Python `os.path.basename`: the part after the last `/`. -/
def basenameAux : List Char → List Char → List Char
  | [], acc => acc.reverse
  | c :: cs, acc => if c = '/' then basenameAux cs [] else basenameAux cs (c :: acc)

/-- Python `os.path.basename` for strings. -/
def pybasename (p : String) : String := ⟨basenameAux p.data []⟩

/-- The marker token table for one language (`language_tokens` in `main`). -/
structure Tokens where
  comment : String
  bop : String
  eop : String
  boi : String
  eoi : String
  bopi : String
  eopi : String
  boc : String
  eoc : String
  boe : String
  eoe : String
deriving DecidableEq

/-- The four selectable languages. -/
inductive Lang
  | F | A | C | S
deriving DecidableEq

/-- `language_tokens` from `main`. -/
def langTokens : Lang → Tokens
  | .F => ⟨"!", "!BOP", "!EOP", "!BOI", "!EOI", "!BOPI", "!EOPI", "!BOC", "!EOC", "!BOE", "!EOE"⟩
  | .A => ⟨"--", "--BOP", "--EOP", "--BOI", "--EOI", "--BOPI", "--EOPI", "--BOC", "--EOC", "--BOE", "--EOE"⟩
  | .C => ⟨"//", "//BOP", "//EOP", "//BOI", "//EOI", "//BOPI", "//EOPI", "//BOC", "//EOC", "//BOE", "//EOE"⟩
  | .S => ⟨"#", "#BOP", "#EOP", "#BOI", "#EOI", "#BOPI", "#EOPI", "#BOC", "#EOC", "#BOE", "#EOE"⟩

/-- The command-line option namespace (fields of `opts` read by the program). -/
structure Opts where
  bare : Bool
  n : Bool
  l : Bool
  s : Bool
  nolatex : Bool
  f : Bool
  internal : Bool
  keys : List String
  style : Option String
deriving DecidableEq

/-- The default `--keys` list from `main`. -/
def defaultKeys : List String :=
  ["!INTERFACE:", "!USES:", "!PUBLIC TYPES:", "!PRIVATE TYPES:",
   "!PUBLIC MEMBER FUNCTIONS:", "!PRIVATE MEMBER FUNCTIONS:",
   "!PUBLIC DATA MEMBERS:", "!PARAMETERS:", "!ARGUMENTS:",
   "!DEFINED PARAMETERS:", "!INPUT PARAMETERS:", "!INPUT/OUTPUT PARAMETERS:",
   "!OUTPUT PARAMETERS:", "!RETURN VALUE:", "!REVISION HISTORY:",
   "!BUGS:", "!SEE ALSO:", "!SYSTEM ROUTINES:", "!FILES USED:",
   "!REMARKS:", "!TO DO:", "!CALLING SEQUENCE:", "!AUTHOR:",
   "!CALLED FROM:", "!LOCAL VARIABLES:"]

/-- The global document state dict (initialised in `main`). -/
structure DocState where
  intro : Bool
  prologue : Bool
  first : Bool
  source : Bool
  verb : Bool
  tpage : Bool
  begdoc : Bool
  not_first : Bool
  have_name : Bool
  have_desc : Bool
  have_intf : Bool
  have_hist : Bool
  name_is : String
  title : String
  author : String
  affiliation : String
  doc_date : String
deriving DecidableEq

/-- The initial state dict from `main`. -/
def initState : DocState :=
  { intro := false, prologue := false, first := true, source := false,
    verb := false, tpage := false, begdoc := false, not_first := false,
    have_name := false, have_desc := false, have_intf := false,
    have_hist := false, name_is := "UNKNOWN", title := "", author := "",
    affiliation := "", doc_date := "" }

/-- `"\n %/////..."` separator (61 slashes), emitted as two lines. -/
def slashSep : String := " %/////////////////////////////////////////////////////////////"

/-- The `" %...."` separator of the `!INTRODUCTION:` branch (46 dots). -/
def introDots : String := " %.............................................."

/-- The end-of-file separator (63 dots). -/
def eofDots : String := "%..............................................................."

/-- The verbatim-open line. -/
def beginV : String := "\\begin\x7bverbatim\x7d"

/-- The verbatim-close line. -/
def endV : String := "\\end\x7bverbatim\x7d"

/-- The one-time prologue section banner of the `!BOP` branch. -/
def bannerStr : String :=
  "\\section\x7bRoutine/Function Prologues\x7d \\label\x7bapp:ProLogues\x7d"

/-- The horizontal-rule separator of the `!BOP` branch. -/
def hruleStr : String := "\\mbox\x7b\x7d\\hrulefill\\"

/-- `do_beg(state, bare)`: begin the document (idempotent via `begdoc`). -/
def do_beg (st : DocState) (bare : Bool) : List String × DocState :=
  if bare then ([], st)
  else if st.begdoc then ([], st)
  else
    ((if st.tpage then
        ["\\title\x7b" ++ (st.title ++ "\x7d"),
         "\\author\x7b\x7b\\sc " ++
           (st.author ++ ("\x7d\\\\ \x7b\\em " ++ (st.affiliation ++ "\x7d\x7d"))),
         "\\date\x7b" ++ (st.doc_date ++ "\x7d")]
      else []) ++
     ["\\begin\x7bdocument\x7d"] ++
     (if st.tpage then ["\\maketitle"] else []) ++
     ["\\tableofcontents", "\\newpage"],
     { st with begdoc := true })

/-- `do_eoc(state)`: close the verbatim block if open, leave source mode. -/
def do_eoc (st : DocState) : List String × DocState :=
  if st.verb then ([endV], { st with verb := false, source := false })
  else ([], { st with source := false })

/-- `set_missing(state)`. -/
def set_missing (st : DocState) : DocState :=
  { st with have_name := false, have_desc := false, have_intf := false,
            have_hist := false, name_is := "UNKNOWN" }

/-- Body of the `!BOP` branch of `process_file`. -/
def bopAction (opts : Opts) (st : DocState) : List String × DocState :=
  let r1 := if st.source then do_eoc st else ([], st)
  let r2 := do_beg r1.2 opts.bare
  let o4 := if st.first = false then ["", hruleStr]
            else if opts.bare = false then [bannerStr] else []
  (r1.1 ++ ["", slashSep] ++ r2.1 ++ o4,
   set_missing { r2.2 with first := false, prologue := true,
                           verb := false, source := false })

/-- Body of the `!BOPI` branch of `process_file` (a duplicate of the
`!BOP` branch guarded by the internal-mode flag, kept duplicated here
exactly as in the source). -/
def bopiAction (opts : Opts) (st : DocState) : List String × DocState :=
  if opts.internal then ([], { st with prologue := false })
  else
    let r1 := if st.source then do_eoc st else ([], st)
    let r2 := do_beg r1.2 opts.bare
    let o4 := if st.first = false then ["", hruleStr]
              else if opts.bare = false then [bannerStr] else []
    (r1.1 ++ ["", slashSep] ++ r2.1 ++ o4,
     set_missing { r2.2 with first := false, prologue := true,
                             verb := false, source := false })

/-- Body of the `!INTRODUCTION:` sub-branch of the intro block. -/
def introductionAction (opts : Opts) (fields : List String) (mi : Nat)
    (st : DocState) : List String × DocState :=
  let r := do_beg st opts.bare
  (r.1 ++ [introDots, "\\section\x7b" ++ (joinSp (fields.drop (mi + 1)) ++ "\x7d")], r.2)

/-- Body of the `!MODULE:` branch. -/
def moduleAction (opts : Opts) (fbase : String) (fields : List String)
    (mi : Nat) (st : DocState) : List String × DocState :=
  let module_name := escUndS (joinSp (fields.drop (mi + 1)))
  let o1 := if opts.n then ["\\newpage"] else []
  let o2 := if opts.f = false then
      ["\\subsection\x7bFortran:  Module Interface " ++
        (module_name ++ (" (Source File: " ++ (fbase ++ ")\x7d"))), ""]
    else
      ["\\subsection\x7bFortran:  Module Interface " ++ (module_name ++ "\x7d"), ""]
  (o1 ++ o2, { st with have_name := true, have_intf := true, not_first := true })

/-- Body of the `!ROUTINE:` branch. -/
def routineAction (opts : Opts) (fbase : String) (fields : List String)
    (mi : Nat) (st : DocState) : List String × DocState :=
  let routine_name := escUndS (joinSp (fields.drop (mi + 1)))
  let o1 := if opts.n && st.not_first then ["\\newpage"] else []
  let o2 := if opts.f = false then
      ["\\subsubsection\x7b" ++ (routine_name ++ (" (Source File: " ++ (fbase ++ ")\x7d"))), ""]
    else
      ["\\subsubsection\x7b" ++ (routine_name ++ "\x7d"), ""]
  (o1 ++ o2, { st with have_name := true, not_first := true })

/-- Body of the `!IROUTINE:` branch. -/
def iroutineAction (fields : List String) (mi : Nat) (st : DocState) :
    List String × DocState :=
  let routine_name := escUndS (joinSp (fields.drop (mi + 1)))
  let words := lineFields routine_name
  let label := words.getD 1 ""
  (["\\subsubsection [" ++ (label ++ ("]\x7b" ++ (routine_name ++ "\x7d"))), ""],
   { st with have_name := true })

/-- The marker index of a field list: 1 when the first field is a bare `!`
(this is also the `start` computation of the `!DESCRIPTION:` branch). -/
def miOf (fields : List String) : Nat := if fields.getD 0 "" = "!" then 1 else 0

/-- Body of the `!DESCRIPTION:` branch. -/
def descriptionAction (opts : Opts) (line : String) (st : DocState) :
    List String × DocState :=
  let o1 := if st.verb then [endV, "\x7b\\sf DESCRIPTION:\\\\ \x7d", ""] else []
  if opts.nolatex then
    (o1 ++ [beginV], { st with verb := true, have_desc := true })
  else
    let parts := lineFields line
    (o1 ++ [joinSp (parts.drop (miOf parts + 1))],
     { st with verb := false, have_desc := true })

/-- The fixed word set of the keyword-style test in the keys loop. -/
def anySix (line : String) : Bool :=
  containsSub line "USES" || containsSub line "INPUT" || containsSub line "OUTPUT" ||
  containsSub line "PARAMETERS" || containsSub line "VALUE" || containsSub line "ARGUMENTS"

/-- Body of the optional-keyword branch (the keys loop) for the first
matching key. -/
def keywordAction (key line : String) (st : DocState) : List String × DocState :=
  let o1 := if st.verb then [endV] else ["", "\\bigskip"]
  let label : String := ⟨key.data.drop 1⟩
  let styled := if anySix line then "\x7b\\em " ++ (label ++ "\x7d")
                else "\x7b\\sf " ++ (label ++ "\x7d")
  (o1 ++ [styled, beginV], { st with verb := true })

/-- Body of the `!EOP`/`!EOPI` branch. -/
def eopAction (st : DocState) : List String × DocState :=
  (if st.verb then [endV] else [], { st with verb := false, prologue := false })

/-- Body of the `!BOC` branch. -/
def bocAction (st : DocState) : List String × DocState :=
  (["", slashSep, "", beginV],
   { st with first := false, prologue := false, source := true, verb := true })

/-- Body of the `!EOC` branch. -/
def eocAction (st : DocState) : List String × DocState :=
  let r := do_eoc st
  (r.1, { r.2 with prologue := false })

/-- Body of the `!BOE` branch. -/
def boeAction (st : DocState) : List String × DocState :=
  let r1 := if st.source then do_eoc st else ([], st)
  (r1.1 ++ ["", slashSep],
   { r1.2 with first := false, prologue := true, verb := false, source := false })

/-- Body of the `!EOE` branch (a duplicate of the `!EOP` body, kept
separate as in the source). -/
def eoeAction (st : DocState) : List String × DocState :=
  (if st.verb then [endV] else [], { st with verb := false, prologue := false })

/-- The line after `lstrip` (the `line` variable of the loop body). -/
def pyLine (raw : String) : String := ⟨dropWs raw.data⟩

/-- Tail of the loop dispatch chain, from the `!EOP`/`!EOPI` test down to
the prologue/introduction fallback, the code-source fallback and the
silent drop. -/
def lateDispatch (tokens : Tokens) (st : DocState) (line : String)
    (fields : List String) (mi : Nat) : List String × DocState :=
  if fields.getD mi "" = tokens.eop ∨ fields.getD mi "" = tokens.eopi then eopAction st
  else if fields.getD mi "" = tokens.boc then bocAction st
  else if fields.getD mi "" = tokens.eoc then eocAction st
  else if fields.getD mi "" = tokens.boe then boeAction st
  else if fields.getD mi "" = tokens.eoe then eoeAction st
  else if st.prologue = true ∨ st.intro = true then
    ([if tokens.comment.data.isPrefixOf line.data then
        (⟨line.data.drop tokens.comment.data.length⟩ : String)
      else line], st)
  else if st.source = true then ([line], st)
  else ([], st)

/-- Middle of the loop dispatch chain: the PROLOGUE-mode name markers,
the description marker and the optional-keyword loop (its first matching
key, in list order). -/
def prologueDispatch (tokens : Tokens) (opts : Opts) (fbase : String)
    (st : DocState) (line : String) (fields : List String) (mi : Nat) :
    List String × DocState :=
  if st.prologue = true ∧ fields.getD mi "" = "!MODULE:" then
    moduleAction opts fbase fields mi st
  else if st.prologue = true ∧ fields.getD mi "" = "!ROUTINE:" then
    routineAction opts fbase fields mi st
  else if st.prologue = true ∧ fields.getD mi "" = "!IROUTINE:" then
    iroutineAction fields mi st
  else if st.prologue = true ∧ containsSub line "!DESCRIPTION:" = true then
    descriptionAction opts line st
  else
    match (if st.prologue then opts.keys.find? (fun k => containsSub line k) else none) with
    | some key => keywordAction key line st
    | none => lateDispatch tokens st line fields mi

/-- The block-marker part of the loop dispatch chain: `!EOI`, `!BOP`,
`!BOPI`, then the later stages. -/
def markerDispatch (tokens : Tokens) (opts : Opts) (fbase : String)
    (st : DocState) (line : String) (fields : List String) (mi : Nat) :
    List String × DocState :=
  if fields.getD mi "" = tokens.eoi then
    (["", slashSep, "\\newpage"], { st with intro := false })
  else if fields.getD mi "" = tokens.bop then bopAction opts st
  else if fields.getD mi "" = tokens.bopi then bopiAction opts st
  else prologueDispatch tokens opts fbase st line fields mi

/-- The dispatch chain of the `for line in f` loop of `process_file`,
after the preprocessing `line = raw.rstrip("\n").lstrip()`,
`fields = line.split()` and the marker-index computation: the inert-line
guard, quote passthrough, `!BOI`, the INTRO-mode field keywords, then the
later stages. -/
def processLineCore (tokens : Tokens) (opts : Opts) (fbase : String)
    (st : DocState) (line : String) (fields : List String) (mi : Nat) :
    List String × DocState :=
  if fields.length ≤ mi then ([], st)
  else if fields.getD mi "" = "!QUOTE:" then
    ([joinSp (fields.drop (mi + 1))], st)
  else if fields.getD mi "" = tokens.boi then ([], { st with intro := true })
  else if st.intro = true ∧ mi + 1 < fields.length ∧ fields.getD (mi + 1) "" = "!TITLE:" then
    ([], { st with title := joinSp (fields.drop (mi + 1)), tpage := true })
  else if st.intro = true ∧ mi + 1 < fields.length ∧ fields.getD (mi + 1) "" = "!AUTHORS:" then
    ([], { st with author := joinSp (fields.drop (mi + 1)), tpage := true })
  else if st.intro = true ∧ mi + 1 < fields.length ∧ fields.getD (mi + 1) "" = "!AFFILIATION:" then
    ([], { st with affiliation := joinSp (fields.drop (mi + 1)), tpage := true })
  else if st.intro = true ∧ mi + 1 < fields.length ∧ fields.getD (mi + 1) "" = "!DATE:" then
    ([], { st with doc_date := joinSp (fields.drop (mi + 1)), tpage := true })
  else if st.intro = true ∧ mi + 1 < fields.length ∧ fields.getD (mi + 1) "" = "!INTRODUCTION:" then
    introductionAction opts fields mi st
  else markerDispatch tokens opts fbase st line fields mi

/-- One iteration of the `for line in f` loop of `process_file`:
strip the line, split it into fields, find the marker index, dispatch. -/
def processLine (tokens : Tokens) (opts : Opts) (fbase : String)
    (st : DocState) (raw : String) : List String × DocState :=
  processLineCore tokens opts fbase st (pyLine raw) (lineFields (pyLine raw))
    (miOf (lineFields (pyLine raw)))

/-- The whole `for line in f` loop. -/
def processLines (tokens : Tokens) (opts : Opts) (fbase : String) :
    List String → DocState → List String × DocState
  | [], st => ([], st)
  | l :: ls, st =>
    let r := processLine tokens opts fbase st l
    let r2 := processLines tokens opts fbase ls r.2
    (r.1 ++ r2.1, r2.2)

/-- The end-of-file close-out of `process_file`: a blank line, then
`do_eoc` when still in source mode, then the trailing dot separator. -/
def eofOut (st : DocState) : List String × DocState :=
  let r := if st.source then do_eoc st else ([], st)
  ([""] ++ r.1 ++ [eofDots], r.2)

/-- The timestamped per-file banner line. -/
def bannerLine (fbase fdate : String) : String :=
  "\\markboth\x7bLeft\x7d\x7bSource File: " ++ (fbase ++ (",  Date: " ++ (fdate ++ "\x7d")))

/-- `process_file(f, filename, state, tokens, opts)`; `fdate` stands for
`datetime.now().strftime(...)`. -/
def process_file (tokens : Tokens) (opts : Opts) (filename fdate : String)
    (lines : List String) (st : DocState) : List String × DocState :=
  let file_basename :=
    escUndS (if filename = "-" then "Standard Input" else pybasename filename)
  let r := processLines tokens opts file_basename lines st
  let r2 := eofOut r.2
  (["", bannerLine file_basename fdate, ""] ++ r.1 ++ r2.1, r2.2)

/-- Output of `print_notice()`. -/
def print_notice_out : List String :=
  ["%                **** IMPORTANT NOTICE *****",
   "% This LaTeX file was automatically generated by ProTeX (Python version)",
   "% Any changes made to this file will likely be lost next time",
   "% it is regenerated from its source. Send questions to your_email@example.com",
   ""]

/-- Python truthiness of the `custom_style` argument (`None` and `""` are
falsy). -/
def styleActive : Option String → Option String
  | none => none
  | some st => if st = "" then none else some st

/-- Output of `print_preamble(custom_style)`. -/
def print_preamble_out (style : Option String) : List String :=
  ["%------------------------ PREAMBLE --------------------------"] ++
  (match styleActive style with
   | some st => ["\\documentclass[11pt]\x7b" ++ (st ++ "\x7d")]
   | none => ["\\documentclass[11pt]\x7barticle\x7d"]) ++
  ["\\usepackage\x7bamsmath\x7d"] ++
  (match styleActive style with
   | some st => ["\\usepackage\x7b" ++ (st ++ "\x7d")]
   | none => []) ++
  ["\\textheight     9in",
   "\\topmargin      0pt",
   "\\headsep        1cm",
   "\\headheight     0pt",
   "\\textwidth      6in",
   "\\oddsidemargin  0in",
   "\\evensidemargin 0in",
   "\\marginparpush  0pt",
   "\\pagestyle\x7bmyheadings\x7d",
   "\\markboth\x7b\x7d\x7b\x7d",
   "%-------------------------------------------------------------",
   "\\setlength\x7b\\parskip\x7d\x7b0pt\x7d",
   "\\setlength\x7b\\parindent\x7d\x7b0pt\x7d",
   "\\setlength\x7b\\baselineskip\x7d\x7b11pt\x7d"]

/-- Output of `print_macros()`. -/
def printMacrosOut : List String :=
  ["",
   "%--------------------- SHORT-HAND MACROS ----------------------",
   "\\def\\bv\x7b\\begin\x7bverbatim\x7d\x7d",
   "\\def\\ev\x7b\\end\x7bverbatim\x7d\x7d",
   "\\def\\be\x7b\\begin\x7bequation\x7d\x7d",
   "\\def\\ee\x7b\\end\x7bequation\x7d\x7d",
   "\\def\\bea\x7b\\begin\x7beqnarray\x7d\x7d",
   "\\def\\eea\x7b\\end\x7beqnarray\x7d\x7d",
   "\\def\\bi\x7b\\begin\x7bitemize\x7d\x7d",
   "\\def\\ei\x7b\\end\x7bitemize\x7d\x7d",
   "\\def\\bn\x7b\\begin\x7benumerate\x7d\x7d",
   "\\def\\en\x7b\\end\x7benumerate\x7d\x7d",
   "\\def\\bd\x7b\\begin\x7bdescription\x7d\x7d",
   "\\def\\ed\x7b\\end\x7bdescription\x7d\x7d",
   "\\def\\(\x7b\\left (\x7d",
   "\\def\\)\x7b\\right )\x7d",
   "\\def\\[\x7b\\left [\x7d",
   "\\def\\]\x7b\\right ]\x7d",
   "\\def\\<\x7b\\left \\langle\x7d",
   "\\def\\>\x7b\\right \\rangle\x7d",
   "\\def\\cI\x7b\x7b\\cal I\x7d\x7d",
   "\\def\\diag\x7b\\mathop\x7b\\rm diag\x7d\x7d",
   "\\def\\tr\x7b\\mathop\x7b\\rm tr\x7d\x7d",
   "%-------------------------------------------------------------"]

/-- The per-file loop of `main`: each file is a triple
(filename, timestamp, input lines). -/
def runFiles (tokens : Tokens) (opts : Opts) :
    List (String × String × List String) → DocState → List String × DocState
  | [], st => ([], st)
  | (fn, fd, ls) :: rest, st =>
    let r := process_file tokens opts fn fd ls st
    let r2 := runFiles tokens opts rest r.2
    (r.1 ++ r2.1, r2.2)

/-- The output of a whole `main` run on resolved files. -/
def main_run (lang : Lang) (opts : Opts)
    (files : List (String × String × List String)) : List String :=
  print_notice_out ++
  (if opts.bare then [] else print_preamble_out opts.style) ++
  printMacrosOut ++
  (runFiles (langTokens lang) opts files initState).1 ++
  (if opts.bare then [] else ["\\end\x7bdocument\x7d"])

/-- The default option set: Fortran, no flags, default keys. -/
def optsDflt : Opts :=
  { bare := false, n := false, l := false, s := false, nolatex := false,
    f := false, internal := false, keys := defaultKeys, style := none }

/-- Options with the new-page flag on. -/
def optsN : Opts := { optsDflt with n := true }

/-- Options with the shut-up flag on. -/
def optsShut : Opts := { optsDflt with s := true }

/-- Options with internal mode on. -/
def optsInternal : Opts := { optsDflt with internal := true }

/-- Number of output lines equal to `t`. -/
def countLine (t : String) : List String → Nat
  | [] => 0
  | x :: xs => (if x = t then 1 else 0) + countLine t xs

/-- 1 when a verbatim block is open, else 0. -/
def vb (st : DocState) : Nat := if st.verb then 1 else 0

/-- A line is echo-safe when none of the three verbatim copies the engine
can make of it (the whole stripped line, the comment-stripped line, the
space-joined remainder after the marker) spells the verbatim-close line.
Lines of real source code satisfy this trivially. -/
def echoSafe (tokens : Tokens) (raw : String) : Bool :=
  let line := pyLine raw
  let fields := lineFields line
  !(line == endV) &&
  !((if tokens.comment.data.isPrefixOf line.data then
       (⟨line.data.drop tokens.comment.data.length⟩ : String) else line) == endV) &&
  !(joinSp (fields.drop (miOf fields + 1)) == endV)

theorem countLine_append (t : String) (a b : List String) :
    countLine t (a ++ b) = countLine t a + countLine t b := by
  induction a with
  | nil => simp [countLine]
  | cons x xs ih =>
    simp [countLine, ih]
    omega

theorem append_ne (p x q : String) (h : p.data.isPrefixOf q.data = false) :
    ¬(p ++ x = q) := by
  intro he
  have h2 : p.data <+: q.data := by
    rw [← he, String.data_append]
    exact List.prefix_append _ _
  rw [← List.isPrefixOf_iff_prefix] at h2
  rw [h2] at h
  exact Bool.noConfusion h

theorem title_ne_endV (x : String) : ("\\title\x7b" ++ x) ≠ endV :=
  append_ne _ x _ (by decide)

theorem author_ne_endV (x : String) : ("\\author\x7b\x7b\\sc " ++ x) ≠ endV :=
  append_ne _ x _ (by decide)

theorem date_ne_endV (x : String) : ("\\date\x7b" ++ x) ≠ endV :=
  append_ne _ x _ (by decide)

theorem section_ne_endV (x : String) : ("\\section\x7b" ++ x) ≠ endV :=
  append_ne _ x _ (by decide)

theorem subsec_ne_endV (x : String) :
    ("\\subsection\x7bFortran:  Module Interface " ++ x) ≠ endV :=
  append_ne _ x _ (by decide)

theorem subsub_ne_endV (x : String) : ("\\subsubsection\x7b" ++ x) ≠ endV :=
  append_ne _ x _ (by decide)

theorem subsubL_ne_endV (x : String) : ("\\subsubsection [" ++ x) ≠ endV :=
  append_ne _ x _ (by decide)

theorem em_ne_endV (x : String) : ("\x7b\\em " ++ x) ≠ endV :=
  append_ne _ x _ (by decide)

theorem sf_ne_endV (x : String) : ("\x7b\\sf " ++ x) ≠ endV :=
  append_ne _ x _ (by decide)

theorem markboth_ne_endV (x : String) :
    ("\\markboth\x7bLeft\x7d\x7bSource File: " ++ x) ≠ endV :=
  append_ne _ x _ (by decide)

theorem litFacts :
    ("" : String) ≠ endV ∧ slashSep ≠ endV ∧ introDots ≠ endV ∧ eofDots ≠ endV ∧
    beginV ≠ endV ∧ bannerStr ≠ endV ∧ hruleStr ≠ endV ∧
    ("\\bigskip" : String) ≠ endV ∧ ("\\newpage" : String) ≠ endV ∧
    ("\x7b\\sf DESCRIPTION:\\\\ \x7d" : String) ≠ endV ∧
    ("\\begin\x7bdocument\x7d" : String) ≠ endV ∧
    ("\\maketitle" : String) ≠ endV ∧ ("\\tableofcontents" : String) ≠ endV := by
  decide

theorem do_beg_endV_count (st : DocState) (b : Bool) :
    countLine endV (do_beg st b).1 = 0 := by
  unfold do_beg
  split_ifs <;>
    simp [countLine, countLine_append, litFacts, title_ne_endV, author_ne_endV,
      date_ne_endV]

theorem do_beg_verb (st : DocState) (b : Bool) : (do_beg st b).2.verb = st.verb := by
  unfold do_beg
  split_ifs <;> simp

theorem bop_balance (opts : Opts) (st : DocState) :
    countLine endV (bopAction opts st).1 + vb (bopAction opts st).2
      ≤ countLine beginV (bopAction opts st).1 + vb st := by
  unfold bopAction do_eoc set_missing
  split_ifs <;>
    simp [*, countLine, countLine_append, vb, do_beg_endV_count, litFacts] <;>
    omega

theorem bopi_balance (opts : Opts) (st : DocState) :
    countLine endV (bopiAction opts st).1 + vb (bopiAction opts st).2
      ≤ countLine beginV (bopiAction opts st).1 + vb st := by
  unfold bopiAction do_eoc set_missing
  split_ifs <;>
    simp [*, countLine, countLine_append, vb, do_beg_endV_count, litFacts] <;>
    omega

theorem introduction_balance (opts : Opts) (fields : List String) (mi : Nat)
    (st : DocState) :
    countLine endV (introductionAction opts fields mi st).1
        + vb (introductionAction opts fields mi st).2
      ≤ countLine beginV (introductionAction opts fields mi st).1 + vb st := by
  unfold introductionAction
  simp [*, countLine, countLine_append, vb, do_beg_endV_count, do_beg_verb, litFacts,
    section_ne_endV]

theorem module_balance (opts : Opts) (fbase : String) (fields : List String)
    (mi : Nat) (st : DocState) :
    countLine endV (moduleAction opts fbase fields mi st).1
        + vb (moduleAction opts fbase fields mi st).2
      ≤ countLine beginV (moduleAction opts fbase fields mi st).1 + vb st := by
  unfold moduleAction
  split_ifs <;>
    simp [*, countLine, countLine_append, vb, litFacts, subsec_ne_endV] <;>
    omega

theorem routine_balance (opts : Opts) (fbase : String) (fields : List String)
    (mi : Nat) (st : DocState) :
    countLine endV (routineAction opts fbase fields mi st).1
        + vb (routineAction opts fbase fields mi st).2
      ≤ countLine beginV (routineAction opts fbase fields mi st).1 + vb st := by
  unfold routineAction
  split_ifs <;>
    simp [*, countLine, countLine_append, vb, litFacts, subsub_ne_endV] <;>
    omega

theorem iroutine_balance (fields : List String) (mi : Nat) (st : DocState) :
    countLine endV (iroutineAction fields mi st).1
        + vb (iroutineAction fields mi st).2
      ≤ countLine beginV (iroutineAction fields mi st).1 + vb st := by
  unfold iroutineAction
  simp [*, countLine, countLine_append, vb, litFacts, subsubL_ne_endV]

theorem description_balance (opts : Opts) (line : String) (st : DocState)
    (h3 : joinSp ((lineFields line).drop (miOf (lineFields line) + 1)) ≠ endV) :
    countLine endV (descriptionAction opts line st).1
        + vb (descriptionAction opts line st).2
      ≤ countLine beginV (descriptionAction opts line st).1 + vb st := by
  unfold descriptionAction
  split_ifs <;>
    simp [*, countLine, countLine_append, vb, litFacts, h3] <;>
    omega

theorem keyword_balance (key line : String) (st : DocState) :
    countLine endV (keywordAction key line st).1
        + vb (keywordAction key line st).2
      ≤ countLine beginV (keywordAction key line st).1 + vb st := by
  unfold keywordAction
  split_ifs <;>
    simp [*, countLine, countLine_append, vb, litFacts, em_ne_endV, sf_ne_endV] <;>
    omega

theorem eop_balance (st : DocState) :
    countLine endV (eopAction st).1 + vb (eopAction st).2
      ≤ countLine beginV (eopAction st).1 + vb st := by
  unfold eopAction
  split_ifs <;> simp [*, countLine, countLine_append, vb, litFacts]

theorem eoe_balance (st : DocState) :
    countLine endV (eoeAction st).1 + vb (eoeAction st).2
      ≤ countLine beginV (eoeAction st).1 + vb st := by
  unfold eoeAction
  split_ifs <;> simp [*, countLine, countLine_append, vb, litFacts]

theorem boc_balance (st : DocState) :
    countLine endV (bocAction st).1 + vb (bocAction st).2
      ≤ countLine beginV (bocAction st).1 + vb st := by
  unfold bocAction
  simp [*, countLine, countLine_append, vb, litFacts]
  omega

theorem eoc_balance (st : DocState) :
    countLine endV (eocAction st).1 + vb (eocAction st).2
      ≤ countLine beginV (eocAction st).1 + vb st := by
  unfold eocAction do_eoc
  split_ifs <;> simp [*, countLine, countLine_append, vb, litFacts]

theorem boe_balance (st : DocState) :
    countLine endV (boeAction st).1 + vb (boeAction st).2
      ≤ countLine beginV (boeAction st).1 + vb st := by
  unfold boeAction do_eoc
  split_ifs <;> simp [*, countLine, countLine_append, vb, litFacts] <;> omega

theorem lateDispatch_balance (tokens : Tokens) (st : DocState) (line : String)
    (fields : List String) (mi : Nat)
    (h1 : line ≠ endV)
    (h2 : (if tokens.comment.data.isPrefixOf line.data then
             (⟨line.data.drop tokens.comment.data.length⟩ : String) else line) ≠ endV) :
    countLine endV (lateDispatch tokens st line fields mi).1
        + vb (lateDispatch tokens st line fields mi).2
      ≤ countLine beginV (lateDispatch tokens st line fields mi).1 + vb st := by
  unfold lateDispatch
  split
  · exact eop_balance _
  split
  · exact boc_balance _
  split
  · exact eoc_balance _
  split
  · exact boe_balance _
  split
  · exact eoe_balance _
  split
  · simp only [countLine]
    rw [if_neg h2]
    omega
  split
  · simp only [countLine]
    rw [if_neg h1]
    omega
  · simp [countLine, vb]

theorem prologueDispatch_balance (tokens : Tokens) (opts : Opts) (fbase : String)
    (st : DocState) (line : String) (fields : List String) (mi : Nat)
    (h1 : line ≠ endV)
    (h2 : (if tokens.comment.data.isPrefixOf line.data then
             (⟨line.data.drop tokens.comment.data.length⟩ : String) else line) ≠ endV)
    (h3 : joinSp ((lineFields line).drop (miOf (lineFields line) + 1)) ≠ endV) :
    countLine endV (prologueDispatch tokens opts fbase st line fields mi).1
        + vb (prologueDispatch tokens opts fbase st line fields mi).2
      ≤ countLine beginV (prologueDispatch tokens opts fbase st line fields mi).1
        + vb st := by
  unfold prologueDispatch
  split
  · exact module_balance _ _ _ _ _
  split
  · exact routine_balance _ _ _ _ _
  split
  · exact iroutine_balance _ _ _
  split
  · exact description_balance _ _ _ h3
  split
  · exact keyword_balance _ _ _
  · exact lateDispatch_balance _ _ _ _ _ h1 h2

theorem markerDispatch_balance (tokens : Tokens) (opts : Opts) (fbase : String)
    (st : DocState) (line : String) (fields : List String) (mi : Nat)
    (h1 : line ≠ endV)
    (h2 : (if tokens.comment.data.isPrefixOf line.data then
             (⟨line.data.drop tokens.comment.data.length⟩ : String) else line) ≠ endV)
    (h3 : joinSp ((lineFields line).drop (miOf (lineFields line) + 1)) ≠ endV) :
    countLine endV (markerDispatch tokens opts fbase st line fields mi).1
        + vb (markerDispatch tokens opts fbase st line fields mi).2
      ≤ countLine beginV (markerDispatch tokens opts fbase st line fields mi).1
        + vb st := by
  unfold markerDispatch
  split
  · simp [countLine, vb, litFacts]
  split
  · exact bop_balance _ _
  split
  · exact bopi_balance _ _
  · exact prologueDispatch_balance _ _ _ _ _ _ _ h1 h2 h3

theorem processLineCore_balance (tokens : Tokens) (opts : Opts) (fbase : String)
    (st : DocState) (line : String) (fields : List String) (mi : Nat)
    (h1 : line ≠ endV)
    (h2 : (if tokens.comment.data.isPrefixOf line.data then
             (⟨line.data.drop tokens.comment.data.length⟩ : String) else line) ≠ endV)
    (h3 : joinSp ((lineFields line).drop (miOf (lineFields line) + 1)) ≠ endV)
    (h4 : joinSp (fields.drop (mi + 1)) ≠ endV) :
    countLine endV (processLineCore tokens opts fbase st line fields mi).1
        + vb (processLineCore tokens opts fbase st line fields mi).2
      ≤ countLine beginV (processLineCore tokens opts fbase st line fields mi).1
        + vb st := by
  unfold processLineCore
  split
  · simp [countLine, vb]
  split
  · simp only [countLine]
    rw [if_neg h4]
    omega
  split
  · simp [countLine, vb]
  split
  · simp [countLine, vb]
  split
  · simp [countLine, vb]
  split
  · simp [countLine, vb]
  split
  · simp [countLine, vb]
  split
  · exact introduction_balance _ _ _ _
  · exact markerDispatch_balance _ _ _ _ _ _ _ h1 h2 h3

theorem processLine_balance (tokens : Tokens) (opts : Opts) (fbase : String)
    (st : DocState) (raw : String) (h : echoSafe tokens raw = true) :
    countLine endV (processLine tokens opts fbase st raw).1
        + vb (processLine tokens opts fbase st raw).2
      ≤ countLine beginV (processLine tokens opts fbase st raw).1 + vb st := by
  simp only [echoSafe, Bool.and_eq_true, Bool.not_eq_true', beq_eq_false_iff_ne] at h
  obtain ⟨⟨h1, h2⟩, h3⟩ := h
  exact processLineCore_balance tokens opts fbase st (pyLine raw)
    (lineFields (pyLine raw)) (miOf (lineFields (pyLine raw))) h1 h2 h3 h3

theorem processLines_balance (tokens : Tokens) (opts : Opts) (fbase : String) :
    ∀ (lines : List String) (st : DocState),
      (∀ l ∈ lines, echoSafe tokens l = true) →
      countLine endV (processLines tokens opts fbase lines st).1
          + vb (processLines tokens opts fbase lines st).2
        ≤ countLine beginV (processLines tokens opts fbase lines st).1 + vb st := by
  intro lines
  induction lines with
  | nil =>
    intro st h
    simp [processLines, countLine]
  | cons l ls ih =>
    intro st h
    have hl : echoSafe tokens l = true := h l (by simp)
    have hrest : ∀ x ∈ ls, echoSafe tokens x = true := fun x hx => h x (by simp [hx])
    have b1 := processLine_balance tokens opts fbase st l hl
    have b2 := ih (processLine tokens opts fbase st l).2 hrest
    simp only [processLines]
    rw [countLine_append, countLine_append]
    omega

theorem eofOut_balance (st : DocState) :
    countLine endV (eofOut st).1 + vb (eofOut st).2
      ≤ countLine beginV (eofOut st).1 + vb st := by
  unfold eofOut do_eoc
  split_ifs <;> simp [*, countLine, countLine_append, vb, litFacts]

theorem bannerLine_ne_endV (fb fd : String) : bannerLine fb fd ≠ endV :=
  markboth_ne_endV _

theorem process_file_balance (tokens : Tokens) (opts : Opts) (fn fd : String)
    (lines : List String) (st : DocState)
    (h : ∀ l ∈ lines, echoSafe tokens l = true) :
    countLine endV (process_file tokens opts fn fd lines st).1
        + vb (process_file tokens opts fn fd lines st).2
      ≤ countLine beginV (process_file tokens opts fn fd lines st).1 + vb st := by
  have b1 := processLines_balance tokens opts
    (escUndS (if fn = "-" then "Standard Input" else pybasename fn)) lines st h
  have b2 := eofOut_balance
    (processLines tokens opts
      (escUndS (if fn = "-" then "Standard Input" else pybasename fn)) lines st).2
  have hA : countLine endV
      ["", bannerLine (escUndS (if fn = "-" then "Standard Input" else pybasename fn)) fd, ""] = 0 := by
    simp [countLine, litFacts, bannerLine_ne_endV]
  simp only [process_file]
  rw [countLine_append, countLine_append, countLine_append, countLine_append, hA]
  omega

theorem lt_length_of_getD_ne (l : List String) (i : Nat) (h : l.getD i "" ≠ "") :
    i < l.length := by
  by_contra hc
  push_neg at hc
  exact h (List.getD_eq_default l "" hc)

theorem processLine_opts_sl (tokens : Tokens) (opts : Opts) (b c : Bool)
    (fbase : String) (st : DocState) (raw : String) :
    processLine tokens { opts with l := b, s := c } fbase st raw
      = processLine tokens opts fbase st raw := rfl

theorem processLines_opts_sl (tokens : Tokens) (opts : Opts) (b c : Bool)
    (fbase : String) :
    ∀ (lines : List String) (st : DocState),
      processLines tokens { opts with l := b, s := c } fbase lines st
        = processLines tokens opts fbase lines st := by
  intro lines
  induction lines with
  | nil => intro st; rfl
  | cons x xs ih =>
    intro st
    simp only [processLines, processLine_opts_sl, ih]

theorem process_file_opts_sl (tokens : Tokens) (opts : Opts) (b c : Bool)
    (fn fd : String) (lines : List String) (st : DocState) :
    process_file tokens { opts with l := b, s := c } fn fd lines st
      = process_file tokens opts fn fd lines st := by
  simp only [process_file, processLines_opts_sl]

theorem runFiles_opts_sl (tokens : Tokens) (opts : Opts) (b c : Bool) :
    ∀ (files : List (String × String × List String)) (st : DocState),
      runFiles tokens { opts with l := b, s := c } files st
        = runFiles tokens opts files st := by
  intro files
  induction files with
  | nil => intro st; rfl
  | cons x xs ih =>
    intro st
    obtain ⟨fn, fd, ls⟩ := x
    simp only [runFiles, process_file_opts_sl, ih]

theorem main_run_opts_sl (lang : Lang) (opts : Opts) (b c : Bool)
    (files : List (String × String × List String)) :
    main_run lang { opts with l := b, s := c } files = main_run lang opts files := by
  simp only [main_run, runFiles_opts_sl]

/-- C1 (amended). Over a whole `process_file` run started with no open
verbatim block, on input lines that do not themselves spell the
verbatim-close line (`echoSafe`), the number of emitted
`\end{verbatim}` lines never exceeds the number of emitted
`\begin{verbatim}` lines; and the end-of-file close-out emits a blank
line, then closes the still-open block only when it is a code block
(both the `verb` and the `source` flag set), then emits the trailing
comment-style separator; a verbatim block opened by a prologue keyword
section (`verb` set, `source` clear) is left open. -/
theorem claim_C1 (lang : Lang) (opts : Opts) (fn fd : String)
    (lines : List String) (st stx : DocState) (hv : st.verb = false)
    (h : ∀ l ∈ lines, echoSafe (langTokens lang) l = true) :
    countLine endV (process_file (langTokens lang) opts fn fd lines st).1
      ≤ countLine beginV (process_file (langTokens lang) opts fn fd lines st).1 ∧
    (eofOut stx).1 = [""] ++ (if stx.verb && stx.source then [endV] else []) ++ [eofDots] ∧
    (eofOut stx).2.verb = (stx.verb && !stx.source) := by
  refine ⟨?_, ?_, ?_⟩
  · have hb := process_file_balance (langTokens lang) opts fn fd lines st h
    have hv0 : vb st = 0 := by simp [vb, hv]
    omega
  · cases hs : stx.source <;> cases hv2 : stx.verb <;> simp [eofOut, do_eoc, hs, hv2]
  · cases hs : stx.source <;> cases hv2 : stx.verb <;> simp [eofOut, do_eoc, hs, hv2]

/-- C1 counterexample: a prologue keyword section (`!INTERFACE:`) left
open at end of file yields one `\begin{verbatim}` and zero
`\end{verbatim}` in the whole `process_file` output, so the counts are
not equal as the claim states. -/
theorem claim_C1_counterexample :
    countLine beginV (process_file (langTokens .F) optsDflt "f.f" "D"
        ["!BOP", "!INTERFACE:"] initState).1 = 1 ∧
    countLine endV (process_file (langTokens .F) optsDflt "f.f" "D"
        ["!BOP", "!INTERFACE:"] initState).1 = 0 := by
  decide

/-- Witness for C1 at a concrete input. -/
theorem claim_C1_witness :
    countLine endV (process_file (langTokens .F) optsDflt "w.f" "D"
        ["!BOC", "x", "!EOC"] initState).1
      ≤ countLine beginV (process_file (langTokens .F) optsDflt "w.f" "D"
        ["!BOC", "x", "!EOC"] initState).1 :=
  (claim_C1 .F optsDflt "w.f" "D" ["!BOC", "x", "!EOC"] initState initState rfl
    (by decide)).1

/-- C3 (code bug). The shut-up flag `--s` is parsed in `main` but never
consulted by `process_file`: the output of a whole run is independent of
it, and with the flag set the body of a `#BOC`/`#EOC` code block
(`echo hi`) is still emitted, contradicting the documented behaviour
"ignore any code from BOC to EOC". -/
theorem claim_C3 :
    (∀ (lang : Lang) (opts : Opts) (c : Bool)
        (files : List (String × String × List String)),
        main_run lang { opts with s := c } files = main_run lang opts files) ∧
    "echo hi" ∈ main_run .S optsShut [("f.sh", "D", ["#BOC", "echo hi", "#EOC"])] := by
  constructor
  · intro lang opts c files
    exact main_run_opts_sl lang opts opts.l c files
  · decide

/-- C6 (amended). A line whose marker field is the literal-quote marker
`!QUOTE:` is, in every mode and from every state, emitted as the
whitespace-separated fields after the marker joined by single spaces
(whitespace is normalized, not reproduced byte-for-byte), the state is
unchanged, and this rule precedes every other marker rule. -/
theorem claim_C6 (tokens : Tokens) (opts : Opts) (fbase : String)
    (st : DocState) (line : String) (fields : List String) (mi : Nat)
    (hq : fields.getD mi "" = "!QUOTE:") :
    processLineCore tokens opts fbase st line fields mi
      = ([joinSp (fields.drop (mi + 1))], st) := by
  have hlen : ¬(fields.length ≤ mi) := by
    intro hc
    rw [List.getD_eq_default _ _ hc] at hq
    exact absurd hq (by decide)
  unfold processLineCore
  rw [if_neg hlen, if_pos hq]

/-- C6 counterexample: the quote rule collapses the internal whitespace
of the remainder, so the output is not the remainder byte-for-byte. -/
theorem claim_C6_counterexample :
    (processLine (langTokens .F) optsDflt "f.f" initState "!QUOTE:  a  b").1 = ["a b"] ∧
    ("a b" : String) ≠ "  a  b" ∧ ("a b" : String) ≠ " a  b" ∧
    ("a b" : String) ≠ "a  b" := by
  decide

/-- Witness for C6 at a concrete input. -/
theorem claim_C6_witness :
    processLineCore (langTokens .F) optsDflt "f.f" initState
        (pyLine "!QUOTE: hi there") (lineFields (pyLine "!QUOTE: hi there"))
        (miOf (lineFields (pyLine "!QUOTE: hi there")))
      = (["hi there"], initState) := by
  have h := claim_C6 (langTokens .F) optsDflt "f.f" initState
    (pyLine "!QUOTE: hi there") (lineFields (pyLine "!QUOTE: hi there"))
    (miOf (lineFields (pyLine "!QUOTE: hi there"))) (by decide)
  rw [h]
  decide

/-- C10 (confirmed). The output of a whole run is independent of the
listing-only flag `--l`: the flag is parsed in `main` but never read. -/
theorem claim_C10 (lang : Lang) (opts : Opts) (b : Bool)
    (files : List (String × String × List String)) :
    main_run lang { opts with l := b } files = main_run lang opts files :=
  main_run_opts_sl lang opts b opts.s files

/-- C2 (amended). When a PROLOGUE-mode line reaches the optional-keyword
loop and `key` is the first matching key, the emitted label style is
chosen by testing the WHOLE LINE for the fixed words
USES/INPUT/OUTPUT/PARAMETERS/VALUE/ARGUMENTS (`anySix line`), not the
matched keyword text alone: any other text on the line containing one of
those words selects the argument-like `{\em ...}` style. -/
theorem claim_C2 (lang : Lang) (opts : Opts) (fbase : String) (st : DocState)
    (line : String) (fields : List String) (mi : Nat) (key : String)
    (hpro : st.prologue = true) (hintro : st.intro = false)
    (hlen : mi < fields.length)
    (hq : fields.getD mi "" ≠ "!QUOTE:")
    (hboi : fields.getD mi "" ≠ (langTokens lang).boi)
    (heoi : fields.getD mi "" ≠ (langTokens lang).eoi)
    (hbop : fields.getD mi "" ≠ (langTokens lang).bop)
    (hbopi : fields.getD mi "" ≠ (langTokens lang).bopi)
    (hmod : fields.getD mi "" ≠ "!MODULE:")
    (hrou : fields.getD mi "" ≠ "!ROUTINE:")
    (hiro : fields.getD mi "" ≠ "!IROUTINE:")
    (hdesc : containsSub line "!DESCRIPTION:" = false)
    (hfind : opts.keys.find? (fun k => containsSub line k) = some key) :
    processLineCore (langTokens lang) opts fbase st line fields mi
      = ((if st.verb = true then [endV] else ["", "\\bigskip"]) ++
         [(if anySix line then "\x7b\\em " ++ ((⟨key.data.drop 1⟩ : String) ++ "\x7d")
           else "\x7b\\sf " ++ ((⟨key.data.drop 1⟩ : String) ++ "\x7d")), beginV],
         { st with verb := true }) := by
  simp only [processLineCore, markerDispatch, prologueDispatch]
  rw [if_neg (Nat.not_le.mpr hlen), if_neg hq, if_neg hboi,
      if_neg (fun hcon => by simp [hintro] at hcon),
      if_neg (fun hcon => by simp [hintro] at hcon),
      if_neg (fun hcon => by simp [hintro] at hcon),
      if_neg (fun hcon => by simp [hintro] at hcon),
      if_neg (fun hcon => by simp [hintro] at hcon),
      if_neg heoi, if_neg hbop, if_neg hbopi,
      if_neg (fun hcon => hmod hcon.2),
      if_neg (fun hcon => hrou hcon.2),
      if_neg (fun hcon => hiro hcon.2),
      if_neg (fun hcon => by simp [hdesc] at hcon),
      if_pos hpro, hfind]
  rfl

/-- C2 counterexample: with the default keys, the keyword `!INTERFACE:`
contains none of the six marker words, yet the line
`!INTERFACE: has INPUT data` renders the argument-like `{\em}` style
(because `INPUT` occurs elsewhere on the line), while the line
`!INTERFACE: x` renders `{\sf}` — so other text on the line does change
the choice. -/
theorem claim_C2_counterexample :
    "\x7b\\em INTERFACE:\x7d" ∈ (processLine (langTokens .F) optsDflt "f.f"
        { initState with prologue := true } "!INTERFACE: has INPUT data").1 ∧
    "\x7b\\sf INTERFACE:\x7d" ∈ (processLine (langTokens .F) optsDflt "f.f"
        { initState with prologue := true } "!INTERFACE: x").1 ∧
    anySix "!INTERFACE:" = false := by
  decide

/-- Witness for C2 at a concrete input. -/
theorem claim_C2_witness :
    processLineCore (langTokens .F) optsDflt "f.f"
        { initState with prologue := true } (pyLine "!INTERFACE:")
        (lineFields (pyLine "!INTERFACE:")) (miOf (lineFields (pyLine "!INTERFACE:")))
      = (["", "\\bigskip", "\x7b\\sf INTERFACE:\x7d", beginV],
         { initState with prologue := true, verb := true }) := by
  have h := claim_C2 .F optsDflt "f.f" { initState with prologue := true }
    (pyLine "!INTERFACE:") (lineFields (pyLine "!INTERFACE:"))
    (miOf (lineFields (pyLine "!INTERFACE:"))) "!INTERFACE:" rfl rfl
    (by decide) (by decide) (by decide) (by decide) (by decide) (by decide)
    (by decide) (by decide) (by decide) (by decide) (by decide)
  rw [h]
  decide

/-- C5 (amended). Outside INTRO mode, a line whose marker field is the
internal-prologue-open marker behaves, when internal mode is off,
exactly like any line whose marker field is the ordinary prologue-open
marker (same output, same state, independent of the rest of either
line); when internal mode is on it produces no output and clears the
prologue flag. In INTRO mode an introduction keyword after the marker
takes precedence (for both marker variants alike). -/
theorem claim_C5 (lang : Lang) (opts : Opts) (fbase : String) (st : DocState)
    (line1 line2 : String) (fields1 fields2 : List String) (mi1 mi2 : Nat)
    (hintro : st.intro = false)
    (h1 : fields1.getD mi1 "" = (langTokens lang).bopi)
    (h2 : fields2.getD mi2 "" = (langTokens lang).bop) :
    (opts.internal = false →
      processLineCore (langTokens lang) opts fbase st line1 fields1 mi1
        = processLineCore (langTokens lang) opts fbase st line2 fields2 mi2) ∧
    (opts.internal = true →
      processLineCore (langTokens lang) opts fbase st line1 fields1 mi1
        = ([], { st with prologue := false })) := by
  have hlen1 : ¬(fields1.length ≤ mi1) := by
    intro hc
    rw [List.getD_eq_default _ _ hc] at h1
    cases lang <;> exact absurd h1 (by decide)
  have hlen2 : ¬(fields2.length ≤ mi2) := by
    intro hc
    rw [List.getD_eq_default _ _ hc] at h2
    cases lang <;> exact absurd h2 (by decide)
  have e1 : processLineCore (langTokens lang) opts fbase st line1 fields1 mi1
      = bopiAction opts st := by
    simp only [processLineCore, markerDispatch]
    rw [if_neg hlen1, h1]
    cases lang <;>
      rw [if_neg (by decide), if_neg (by decide),
          if_neg (fun hcon => by simp [hintro] at hcon),
          if_neg (fun hcon => by simp [hintro] at hcon),
          if_neg (fun hcon => by simp [hintro] at hcon),
          if_neg (fun hcon => by simp [hintro] at hcon),
          if_neg (fun hcon => by simp [hintro] at hcon),
          if_neg (by decide), if_neg (by decide), if_pos rfl]
  have e2 : processLineCore (langTokens lang) opts fbase st line2 fields2 mi2
      = bopAction opts st := by
    simp only [processLineCore, markerDispatch]
    rw [if_neg hlen2, h2]
    cases lang <;>
      rw [if_neg (by decide), if_neg (by decide),
          if_neg (fun hcon => by simp [hintro] at hcon),
          if_neg (fun hcon => by simp [hintro] at hcon),
          if_neg (fun hcon => by simp [hintro] at hcon),
          if_neg (fun hcon => by simp [hintro] at hcon),
          if_neg (fun hcon => by simp [hintro] at hcon),
          if_neg (by decide), if_pos rfl]
  constructor
  · intro hint
    rw [e1, e2]
    unfold bopiAction
    rw [if_neg (by simp [hint])]
    rfl
  · intro hint
    rw [e1]
    unfold bopiAction
    rw [if_pos hint]

/-- C5 counterexample: with internal mode on and INTRO mode active, the
line `!BOPI !INTRODUCTION: X` carries the internal-prologue-open marker
in its marker field, yet it produces output (the introduction rule fires
first) and leaves the already-active prologue flag set — so the
internal-prologue open is not universally "fully suppressed with no
prologue active" as the claim states. The state is reached from the
initial state by the lines `!BOP` then `!BOI`. -/
theorem claim_C5_counterexample :
    (lineFields (pyLine "!BOPI !INTRODUCTION: X")).getD
        (miOf (lineFields (pyLine "!BOPI !INTRODUCTION: X"))) ""
      = (langTokens .F).bopi ∧
    (processLine (langTokens .F) optsInternal "f.f"
        (processLines (langTokens .F) optsInternal "f.f" ["!BOP", "!BOI"] initState).2
        "!BOPI !INTRODUCTION: X").1 ≠ [] ∧
    (processLine (langTokens .F) optsInternal "f.f"
        (processLines (langTokens .F) optsInternal "f.f" ["!BOP", "!BOI"] initState).2
        "!BOPI !INTRODUCTION: X").2.prologue = true := by
  decide

/-- Witness for C5 at a concrete input. -/
theorem claim_C5_witness :
    processLineCore (langTokens .F) optsDflt "f.f" initState
        (pyLine "!BOPI") (lineFields (pyLine "!BOPI")) (miOf (lineFields (pyLine "!BOPI")))
      = processLineCore (langTokens .F) optsDflt "f.f" initState
        (pyLine "!BOP") (lineFields (pyLine "!BOP")) (miOf (lineFields (pyLine "!BOP"))) :=
  (claim_C5 .F optsDflt "f.f" initState (pyLine "!BOPI") (pyLine "!BOP")
    (lineFields (pyLine "!BOPI")) (lineFields (pyLine "!BOP"))
    (miOf (lineFields (pyLine "!BOPI"))) (miOf (lineFields (pyLine "!BOP")))
    rfl (by decide) (by decide)).1 rfl

/-- C9 (confirmed). An `!IROUTINE:` marker processed in PROLOGUE mode
(outside INTRO mode) whose remainder has fewer than two
whitespace-separated words emits a sub-subsection heading whose optional
short label is the empty string, with the full (underscore-escaped)
remainder as the heading text, and marks the name captured. -/
theorem claim_C9 (lang : Lang) (opts : Opts) (fbase : String) (st : DocState)
    (line : String) (fields : List String) (mi : Nat)
    (hintro : st.intro = false) (hpro : st.prologue = true)
    (hm : fields.getD mi "" = "!IROUTINE:")
    (hw : (lineFields (escUndS (joinSp (fields.drop (mi + 1))))).length < 2) :
    processLineCore (langTokens lang) opts fbase st line fields mi
      = (["\\subsubsection [" ++ (("" : String) ++ ("]\x7b" ++
          (escUndS (joinSp (fields.drop (mi + 1))) ++ "\x7d"))), ""],
         { st with have_name := true }) := by
  have hlen : ¬(fields.length ≤ mi) := by
    intro hc
    rw [List.getD_eq_default _ _ hc] at hm
    exact absurd hm (by decide)
  have hlab : (lineFields (escUndS (joinSp (fields.drop (mi + 1))))).getD 1 "" = "" :=
    List.getD_eq_default _ "" (by omega)
  simp only [processLineCore, markerDispatch, prologueDispatch]
  rw [if_neg hlen, hm]
  cases lang <;>
    (rw [if_neg (by decide), if_neg (by decide),
         if_neg (fun hcon => by simp [hintro] at hcon),
         if_neg (fun hcon => by simp [hintro] at hcon),
         if_neg (fun hcon => by simp [hintro] at hcon),
         if_neg (fun hcon => by simp [hintro] at hcon),
         if_neg (fun hcon => by simp [hintro] at hcon),
         if_neg (by decide), if_neg (by decide), if_neg (by decide),
         if_neg (fun hcon => absurd hcon.2 (by decide)),
         if_neg (fun hcon => absurd hcon.2 (by decide)),
         if_pos (And.intro hpro rfl)]
     simp only [iroutineAction]
     rw [hlab])

/-- Witness for C9 at a concrete input. -/
theorem claim_C9_witness :
    processLineCore (langTokens .F) optsDflt "f.f"
        { initState with prologue := true } (pyLine "!IROUTINE: my_func")
        (lineFields (pyLine "!IROUTINE: my_func"))
        (miOf (lineFields (pyLine "!IROUTINE: my_func")))
      = (["\\subsubsection []\x7bmy\\_func\x7d", ""],
         { initState with prologue := true, have_name := true }) := by
  have h := claim_C9 .F optsDflt "f.f" { initState with prologue := true }
    (pyLine "!IROUTINE: my_func") (lineFields (pyLine "!IROUTINE: my_func"))
    (miOf (lineFields (pyLine "!IROUTINE: my_func"))) rfl rfl (by decide) (by decide)
  rw [h]
  decide

theorem subsub_ne_npage (x : String) : ("\\subsubsection\x7b" ++ x) ≠ "\\newpage" :=
  append_ne _ x _ (by decide)

/-- C7 (amended). A `!ROUTINE:` marker in PROLOGUE mode (outside INTRO
mode) emits a page break exactly when the new-page option is on AND the
`not_first` flag is already set; the marker then sets that flag. The
flag starts false for the whole run and is never reset per file (it is
also set by `!MODULE:` markers), so only the first routine/module
heading of the RUN is exempt from the page break — the first routine of
a later file in the same run does get one. -/
theorem claim_C7 (lang : Lang) (opts : Opts) (fbase : String) (st : DocState)
    (line : String) (fields : List String) (mi : Nat)
    (hintro : st.intro = false) (hpro : st.prologue = true)
    (hm : fields.getD mi "" = "!ROUTINE:") :
    countLine "\\newpage"
        (processLineCore (langTokens lang) opts fbase st line fields mi).1
      = (if opts.n && st.not_first then 1 else 0) ∧
    (processLineCore (langTokens lang) opts fbase st line fields mi).2.not_first = true ∧
    initState.not_first = false := by
  have hlen : ¬(fields.length ≤ mi) := by
    intro hc
    rw [List.getD_eq_default _ _ hc] at hm
    exact absurd hm (by decide)
  have e : processLineCore (langTokens lang) opts fbase st line fields mi
      = routineAction opts fbase fields mi st := by
    simp only [processLineCore, markerDispatch, prologueDispatch]
    rw [if_neg hlen, hm]
    cases lang <;>
      rw [if_neg (by decide), if_neg (by decide),
          if_neg (fun hcon => by simp [hintro] at hcon),
          if_neg (fun hcon => by simp [hintro] at hcon),
          if_neg (fun hcon => by simp [hintro] at hcon),
          if_neg (fun hcon => by simp [hintro] at hcon),
          if_neg (fun hcon => by simp [hintro] at hcon),
          if_neg (by decide), if_neg (by decide), if_neg (by decide),
          if_neg (fun hcon => absurd hcon.2 (by decide)),
          if_pos (And.intro hpro rfl)]
  rw [e]
  refine ⟨?_, ?_, rfl⟩
  · unfold routineAction
    split_ifs <;>
      simp_all [countLine, countLine_append, subsub_ne_npage]
  · unfold routineAction
    split_ifs <;> simp

/-- C7 counterexample: a two-file run with the new-page option on; the
second file is `!BOP`, `!ROUTINE: b`, whose only (hence first) routine
heading is preceded by a `\newpage` emitted because the flag set by the
first file persists — the whole second-file output is listed. -/
theorem claim_C7_counterexample :
    (process_file (langTokens .F) optsN "b.f" "D" ["!BOP", "!ROUTINE: b"]
        (process_file (langTokens .F) optsN "a.f" "D" ["!BOP", "!ROUTINE: a"]
          initState).2).1
      = ["", "\\markboth\x7bLeft\x7d\x7bSource File: b.f,  Date: D\x7d", "", "",
         slashSep, "", hruleStr, "\\newpage",
         "\\subsubsection\x7bb (Source File: b.f)\x7d", "", "", eofDots] ∧
    countLine "\\newpage"
      (process_file (langTokens .F) optsN "a.f" "D" ["!BOP", "!ROUTINE: a"]
        initState).1 = 1 := by
  decide

/-- Witness for C7 at a concrete input. -/
theorem claim_C7_witness :
    countLine "\\newpage"
        (processLineCore (langTokens .F) optsN "f.f"
          { initState with prologue := true } (pyLine "!ROUTINE: r")
          (lineFields (pyLine "!ROUTINE: r"))
          (miOf (lineFields (pyLine "!ROUTINE: r")))).1 = 0 := by
  have h := claim_C7 .F optsN "f.f" { initState with prologue := true }
    (pyLine "!ROUTINE: r") (lineFields (pyLine "!ROUTINE: r"))
    (miOf (lineFields (pyLine "!ROUTINE: r"))) rfl rfl (by decide)
  rw [h.1]
  decide

/-- C8 (confirmed). Two `process_file` runs on the same input with the
same options differ at most in the timestamp embedded in the per-file
banner: the outputs have the same length, agree after erasing index 1
(the banner line, the only line mentioning the timestamp), and leave
identical states. -/
theorem claim_C8 (lang : Lang) (opts : Opts) (fn : String) (lines : List String)
    (st : DocState) (t1 t2 : String) :
    (process_file (langTokens lang) opts fn t1 lines st).1.length
      = (process_file (langTokens lang) opts fn t2 lines st).1.length ∧
    (process_file (langTokens lang) opts fn t1 lines st).1.eraseIdx 1
      = (process_file (langTokens lang) opts fn t2 lines st).1.eraseIdx 1 ∧
    (process_file (langTokens lang) opts fn t1 lines st).1[1]?
      = some (bannerLine
          (escUndS (if fn = "-" then "Standard Input" else pybasename fn)) t1) ∧
    (process_file (langTokens lang) opts fn t1 lines st).2
      = (process_file (langTokens lang) opts fn t2 lines st).2 := by
  refine ⟨?_, ?_, ?_, ?_⟩ <;>
    simp [process_file, List.eraseIdx]

theorem title_ne_banner (x : String) : ("\\title\x7b" ++ x) ≠ bannerStr :=
  append_ne _ x _ (by decide)

theorem author_ne_banner (x : String) : ("\\author\x7b\x7b\\sc " ++ x) ≠ bannerStr :=
  append_ne _ x _ (by decide)

theorem date_ne_banner (x : String) : ("\\date\x7b" ++ x) ≠ bannerStr :=
  append_ne _ x _ (by decide)

theorem title_ne_hrule (x : String) : ("\\title\x7b" ++ x) ≠ hruleStr :=
  append_ne _ x _ (by decide)

theorem author_ne_hrule (x : String) : ("\\author\x7b\x7b\\sc " ++ x) ≠ hruleStr :=
  append_ne _ x _ (by decide)

theorem date_ne_hrule (x : String) : ("\\date\x7b" ++ x) ≠ hruleStr :=
  append_ne _ x _ (by decide)

theorem title_ne_bdoc (x : String) : ("\\title\x7b" ++ x) ≠ "\\begin\x7bdocument\x7d" :=
  append_ne _ x _ (by decide)

theorem author_ne_bdoc (x : String) :
    ("\\author\x7b\x7b\\sc " ++ x) ≠ "\\begin\x7bdocument\x7d" :=
  append_ne _ x _ (by decide)

theorem date_ne_bdoc (x : String) : ("\\date\x7b" ++ x) ≠ "\\begin\x7bdocument\x7d" :=
  append_ne _ x _ (by decide)

theorem litFacts2 :
    ("" : String) ≠ bannerStr ∧ slashSep ≠ bannerStr ∧ endV ≠ bannerStr ∧
    hruleStr ≠ bannerStr ∧ ("\\begin\x7bdocument\x7d" : String) ≠ bannerStr ∧
    ("\\maketitle" : String) ≠ bannerStr ∧ ("\\tableofcontents" : String) ≠ bannerStr ∧
    ("\\newpage" : String) ≠ bannerStr ∧
    ("" : String) ≠ hruleStr ∧ slashSep ≠ hruleStr ∧ endV ≠ hruleStr ∧
    bannerStr ≠ hruleStr ∧ ("\\begin\x7bdocument\x7d" : String) ≠ hruleStr ∧
    ("\\maketitle" : String) ≠ hruleStr ∧ ("\\tableofcontents" : String) ≠ hruleStr ∧
    ("\\newpage" : String) ≠ hruleStr ∧
    ("" : String) ≠ "\\begin\x7bdocument\x7d" ∧ slashSep ≠ "\\begin\x7bdocument\x7d" ∧
    endV ≠ "\\begin\x7bdocument\x7d" ∧ bannerStr ≠ "\\begin\x7bdocument\x7d" ∧
    hruleStr ≠ "\\begin\x7bdocument\x7d" ∧
    ("\\maketitle" : String) ≠ "\\begin\x7bdocument\x7d" ∧
    ("\\tableofcontents" : String) ≠ "\\begin\x7bdocument\x7d" ∧
    ("\\newpage" : String) ≠ "\\begin\x7bdocument\x7d" := by
  decide

theorem do_beg_banner_count (st : DocState) (b : Bool) :
    countLine bannerStr (do_beg st b).1 = 0 := by
  unfold do_beg
  split_ifs <;>
    simp [countLine, countLine_append, litFacts2, title_ne_banner,
      author_ne_banner, date_ne_banner]

theorem do_beg_hrule_count (st : DocState) (b : Bool) :
    countLine hruleStr (do_beg st b).1 = 0 := by
  unfold do_beg
  split_ifs <;>
    simp [countLine, countLine_append, litFacts2, title_ne_hrule,
      author_ne_hrule, date_ne_hrule]

theorem do_beg_bdoc_count (st : DocState) (b : Bool) :
    countLine "\\begin\x7bdocument\x7d" (do_beg st b).1
      = if b || st.begdoc then 0 else 1 := by
  unfold do_beg
  split_ifs <;>
    simp_all [countLine, countLine_append, litFacts2, title_ne_bdoc,
      author_ne_bdoc, date_ne_bdoc]

theorem bopAction_closes (opts : Opts) (st : DocState) (hs : st.source = true)
    (hv : st.verb = true) : (bopAction opts st).1.getD 0 "" = endV := by
  unfold bopAction do_eoc
  rw [if_pos hs, if_pos hv]
  rfl

theorem bopAction_banner_count (opts : Opts) (st : DocState) :
    countLine bannerStr (bopAction opts st).1
      = if st.first && !opts.bare then 1 else 0 := by
  unfold bopAction do_eoc
  split_ifs <;>
    simp_all [countLine, countLine_append, do_beg_banner_count, litFacts2]

theorem bopAction_hrule_count (opts : Opts) (st : DocState) :
    countLine hruleStr (bopAction opts st).1 = if st.first then 0 else 1 := by
  unfold bopAction do_eoc
  split_ifs <;>
    simp_all [countLine, countLine_append, do_beg_hrule_count, litFacts2]

theorem do_beg_begdoc (st : DocState) (b : Bool) :
    (do_beg st b).2.begdoc = (st.begdoc || !b) := by
  unfold do_beg
  split_ifs <;> simp_all

theorem bopAction_begdoc (opts : Opts) (st : DocState) :
    (bopAction opts st).2.begdoc = (st.begdoc || !opts.bare) := by
  simp only [bopAction, do_eoc, set_missing]
  split_ifs <;> simp_all [do_beg_begdoc]

theorem bopAction_bdoc_count (opts : Opts) (st : DocState) :
    countLine "\\begin\x7bdocument\x7d" (bopAction opts st).1
      = if opts.bare || st.begdoc then 0 else 1 := by
  unfold bopAction do_eoc
  split_ifs <;>
    simp_all [countLine, countLine_append, do_beg_bdoc_count, litFacts2]

theorem bopAction_resets (opts : Opts) (st : DocState) :
    (bopAction opts st).2.have_name = false ∧
    (bopAction opts st).2.have_desc = false ∧
    (bopAction opts st).2.have_intf = false ∧
    (bopAction opts st).2.have_hist = false ∧
    (bopAction opts st).2.name_is = "UNKNOWN" ∧
    (bopAction opts st).2.prologue = true ∧
    (bopAction opts st).2.first = false ∧
    (bopAction opts st).2.verb = false ∧
    (bopAction opts st).2.source = false := by
  unfold bopAction do_eoc do_beg set_missing
  split_ifs <;> simp

/-- C4 (amended). At an ordinary prologue-open marker outside INTRO
mode: an open code block with an open verbatim is closed first (the
close is the first emitted line); document-begin is idempotent
(`\begin{document}` is emitted exactly once per run and only outside
bare mode); the one-time section banner with label `app:ProLogues` is
emitted iff the `first` flag is still set AND bare mode is off — the
flag is also cleared by code-open and example-open markers, so it does
not mean "first prologue of the run"; when the flag is cleared a
horizontal rule is emitted instead (flag set + bare mode: neither); and
all have_X flags, the captured name, and the mode flags are reset for
the new prologue. -/
theorem claim_C4 (lang : Lang) (opts : Opts) (fbase : String) (st : DocState)
    (line : String) (fields : List String) (mi : Nat)
    (hintro : st.intro = false)
    (hm : fields.getD mi "" = (langTokens lang).bop) :
    (st.source = true → st.verb = true →
      (processLineCore (langTokens lang) opts fbase st line fields mi).1.getD 0 ""
        = endV) ∧
    countLine bannerStr
        (processLineCore (langTokens lang) opts fbase st line fields mi).1
      = (if st.first && !opts.bare then 1 else 0) ∧
    countLine hruleStr
        (processLineCore (langTokens lang) opts fbase st line fields mi).1
      = (if st.first then 0 else 1) ∧
    (processLineCore (langTokens lang) opts fbase st line fields mi).2.begdoc
      = (st.begdoc || !opts.bare) ∧
    (st.begdoc = true →
      countLine "\\begin\x7bdocument\x7d"
        (processLineCore (langTokens lang) opts fbase st line fields mi).1 = 0) ∧
    (st.begdoc = false → opts.bare = false →
      countLine "\\begin\x7bdocument\x7d"
        (processLineCore (langTokens lang) opts fbase st line fields mi).1 = 1) ∧
    (processLineCore (langTokens lang) opts fbase st line fields mi).2.have_name = false ∧
    (processLineCore (langTokens lang) opts fbase st line fields mi).2.have_desc = false ∧
    (processLineCore (langTokens lang) opts fbase st line fields mi).2.have_intf = false ∧
    (processLineCore (langTokens lang) opts fbase st line fields mi).2.have_hist = false ∧
    (processLineCore (langTokens lang) opts fbase st line fields mi).2.name_is = "UNKNOWN" ∧
    (processLineCore (langTokens lang) opts fbase st line fields mi).2.prologue = true ∧
    (processLineCore (langTokens lang) opts fbase st line fields mi).2.first = false ∧
    (processLineCore (langTokens lang) opts fbase st line fields mi).2.verb = false ∧
    (processLineCore (langTokens lang) opts fbase st line fields mi).2.source = false := by
  have hlen : ¬(fields.length ≤ mi) := by
    intro hc
    rw [List.getD_eq_default _ _ hc] at hm
    cases lang <;> exact absurd hm (by decide)
  have e : processLineCore (langTokens lang) opts fbase st line fields mi
      = bopAction opts st := by
    simp only [processLineCore, markerDispatch]
    rw [if_neg hlen, hm]
    cases lang <;>
      rw [if_neg (by decide), if_neg (by decide),
          if_neg (fun hcon => by simp [hintro] at hcon),
          if_neg (fun hcon => by simp [hintro] at hcon),
          if_neg (fun hcon => by simp [hintro] at hcon),
          if_neg (fun hcon => by simp [hintro] at hcon),
          if_neg (fun hcon => by simp [hintro] at hcon),
          if_neg (by decide), if_pos rfl]
  rw [e]
  obtain ⟨r1, r2, r3, r4, r5, r6, r7, r8, r9⟩ := bopAction_resets opts st
  refine ⟨fun hs hv => bopAction_closes opts st hs hv,
    bopAction_banner_count opts st, bopAction_hrule_count opts st,
    bopAction_begdoc opts st, ?_, ?_, r1, r2, r3, r4, r5, r6, r7, r8, r9⟩
  · intro hb
    rw [bopAction_bdoc_count, hb]
    simp
  · intro hb hbare
    rw [bopAction_bdoc_count, hb, hbare]
    simp

/-- C4 counterexample: a code block before the first prologue of the run
clears the `first` flag, so the very first prologue-open of the run
emits the horizontal rule, not the one-time section banner, contrary to
the claim. -/
theorem claim_C4_counterexample :
    countLine bannerStr (process_file (langTokens .F) optsDflt "f.f" "D"
        ["!BOC", "!EOC", "!BOP"] initState).1 = 0 ∧
    countLine hruleStr (process_file (langTokens .F) optsDflt "f.f" "D"
        ["!BOC", "!EOC", "!BOP"] initState).1 = 1 := by
  decide

/-- Witness for C4 at a concrete input. -/
theorem claim_C4_witness :
    countLine bannerStr
        (processLineCore (langTokens .F) optsDflt "f.f" initState
          (pyLine "!BOP") (lineFields (pyLine "!BOP"))
          (miOf (lineFields (pyLine "!BOP")))).1 = 1 := by
  have h := claim_C4 .F optsDflt "f.f" initState (pyLine "!BOP")
    (lineFields (pyLine "!BOP")) (miOf (lineFields (pyLine "!BOP"))) rfl (by decide)
  rw [h.2.1]
  decide

end Protex
